import Mathlib

/-!
Shallow embedding of the matching engine of the CineMatch backend
(class MatchesService: findPotentialMatches, getRecentMovies,
getMatchesForMovie), together with the store model it queries.

Modelling conventions:
* Firestore collections become explicit values: the media_logs
  collection is a list of documents in document order, the users
  collection and the media_cache collection are partial maps.
* Timestamps are epoch milliseconds (Int); Date.now() is a parameter
  now, and the cutoff computed by calendar arithmetic
  (cutoffDate.setDate(getDate() - maxDaysAgo)) is abstracted as a
  parameter cutoff, since none of the verified properties depend on
  the calendar computation itself.
* Ratings are rationals (the model allows decimals such as 4.5).
  JavaScript truthiness of a rating (undefined and 0 are both falsy)
  is modelled by ratingTruthy.
* Math.floor of the millisecond quotient is Int.fdiv.
-/

namespace CineMatch

/-- A document of the media_logs collection (interface MediaLog),
restricted to the fields the matching engine reads. -/
structure MediaLog where
  userId : String
  tmdbId : Int
  mediaType : String
  watchedAt : Int
  rating : Option ℚ
  deriving DecidableEq, Repr

/-- Public profile data read from a users document. -/
structure UserInfo where
  displayName : Option String
  photoURL : Option String
  deriving DecidableEq, Repr

/-- Cached title metadata read from a media_cache document. -/
structure MovieInfo where
  title : Option String
  posterPath : Option String
  deriving DecidableEq, Repr

/-- The Firestore state seen by MatchesService: the media_logs
collection in document order, the users collection keyed by uid, and
the media_cache collection keyed by the numeric movie id (the source
uses the document id movie_{tmdbId}). -/
structure Store where
  mediaLogs : List MediaLog
  users : String → Option UserInfo
  mediaCache : Int → Option MovieInfo

/-- interface PotentialMatch of user-match.model. -/
structure PotentialMatch where
  userId : String
  displayName : Option String
  photoURL : Option String
  movieId : Int
  movieTitle : Option String
  moviePosterPath : Option String
  theirWatchedAt : Int
  myWatchedAt : Int
  daysAgo : Int
  myRating : Option ℚ
  theirRating : Option ℚ
  deriving DecidableEq, Repr

/-- interface MatchesResponse of user-match.model. -/
structure MatchesResponse where
  «matches» : List PotentialMatch
  total : Nat
  deriving DecidableEq, Repr

/-- JavaScript truthiness of an optional rating: undefined is falsy
and the number 0 is falsy. -/
def ratingTruthy : Option ℚ → Bool
  | none => false
  | some v => decide (v ≠ 0)

/-- daysAgo = Math.floor((now - watchedAt) / (1000*60*60*24)). -/
def daysAgoOf (now watchedAt : Int) : Int :=
  (now - watchedAt).fdiv 86400000

/-- Ordering used to sort potential matches (comparator
(a, b) => a.daysAgo - b.daysAgo, a stable ascending sort). -/
def daysAgoLE (a b : PotentialMatch) : Prop := a.daysAgo ≤ b.daysAgo

instance : DecidableRel daysAgoLE := fun a b => Int.decLe a.daysAgo b.daysAgo

instance : IsTotal PotentialMatch daysAgoLE := ⟨fun a b => Int.le_total a.daysAgo b.daysAgo⟩

instance : IsTrans PotentialMatch daysAgoLE := ⟨fun _ _ _ h1 h2 => le_trans h1 h2⟩

/-- Descending watchedAt order (orderBy watchedAt desc). -/
def watchedAtGE (a b : MediaLog) : Prop := b.watchedAt ≤ a.watchedAt

instance : DecidableRel watchedAtGE := fun a b => Int.decLe b.watchedAt a.watchedAt

instance : IsTotal MediaLog watchedAtGE := ⟨fun a b => Int.le_total b.watchedAt a.watchedAt⟩

instance : IsTrans MediaLog watchedAtGE := ⟨fun _ _ _ h1 h2 => le_trans h2 h1⟩

/-- The stable ascending sort of the match list (Array.prototype.sort
with the daysAgo comparator; the JS sort is stable). -/
def sortMatches (l : List PotentialMatch) : List PotentialMatch :=
  List.insertionSort daysAgoLE l

/-- private getRecentMovies: media_logs where userId == uid,
mediaType == movie, watchedAt >= cutoff, orderBy watchedAt desc. -/
def getRecentMovies (s : Store) (userId : String) (cutoff : Int) : List MediaLog :=
  List.insertionSort watchedAtGE
    (s.mediaLogs.filter fun l =>
      l.userId == userId && l.mediaType == "movie" && decide (cutoff ≤ l.watchedAt))

/-- The per-title query of findPotentialMatches and getMatchesForMovie:
media_logs where tmdbId == id, mediaType == movie, watchedAt >= cutoff,
returned in document order (no orderBy clause). -/
def viewsByTitle (s : Store) (tmdbId : Int) (cutoff : Int) : List MediaLog :=
  s.mediaLogs.filter fun l =>
    l.tmdbId == tmdbId && l.mediaType == "movie" && decide (cutoff ≤ l.watchedAt)

/-- The rating filter of findPotentialMatches:
minRating > 0 && (!otherLog.rating || otherLog.rating < minRating). -/
def minRatingExcludes (minRating : ℚ) (r : Option ℚ) : Bool :=
  decide (0 < minRating) && (!ratingTruthy r || decide (r.getD 0 < minRating))

/-- The rating-compatibility band of findPotentialMatches:
myLog.rating && otherLog.rating && Math.abs(diff) > 1. -/
def bandExcludes (myR theirR : Option ℚ) : Bool :=
  ratingTruthy myR && ratingTruthy theirR && decide (1 < |myR.getD 0 - theirR.getD 0|)

/-- Construction of the PotentialMatch pushed by findPotentialMatches
for the pair (myLog, otherLog), including the profile and media_cache
enrichment. -/
def mkMatch (s : Store) (now : Int) (myLog otherLog : MediaLog) : PotentialMatch :=
  { userId := otherLog.userId
    displayName := (s.users otherLog.userId).bind UserInfo.displayName
    photoURL := (s.users otherLog.userId).bind UserInfo.photoURL
    movieId := myLog.tmdbId
    movieTitle := (s.mediaCache myLog.tmdbId).bind MovieInfo.title
    moviePosterPath := (s.mediaCache myLog.tmdbId).bind MovieInfo.posterPath
    theirWatchedAt := otherLog.watchedAt
    myWatchedAt := myLog.watchedAt
    daysAgo := daysAgoOf now otherLog.watchedAt
    myRating := myLog.rating
    theirRating := otherLog.rating }

/-- Body of the inner candidate loop of findPotentialMatches: the four
continue-guards (self, rating filter, compatibility band, duplicate
(userId, movieId) already accumulated) and otherwise the push. -/
def matchStep (s : Store) (userId : String) (minRating : ℚ) (now : Int) (myLog : MediaLog)
    (acc : List PotentialMatch) (otherLog : MediaLog) : List PotentialMatch :=
  if otherLog.userId == userId then acc
  else if minRatingExcludes minRating otherLog.rating then acc
  else if bandExcludes myLog.rating otherLog.rating then acc
  else if (acc.find? fun m => m.userId == otherLog.userId && m.movieId == myLog.tmdbId).isSome then acc
  else acc ++ [mkMatch s now myLog otherLog]

/-- The nested accumulation loop of findPotentialMatches: for each of
the requesting user's recent logs, fold the candidate views of the
same title through matchStep. -/
def accumMatches (s : Store) (userId : String) (minRating : ℚ) (now cutoff : Int)
    (myRecent : List MediaLog) : List PotentialMatch :=
  myRecent.foldl
    (fun acc myLog => (viewsByTitle s myLog.tmdbId cutoff).foldl
      (matchStep s userId minRating now myLog) acc) []

/-- findPotentialMatches: recent movies of the requester, the nested
matching loop, the stable sort by daysAgo, and the limit slice; total
is the length of the accumulated list before the slice. -/
def findPotentialMatches (s : Store) (userId : String) (now cutoff : Int)
    (minRating : ℚ) (limit : Nat) : MatchesResponse :=
  let myRecentMovies := getRecentMovies s userId cutoff
  if myRecentMovies.isEmpty then { «matches» := [], total := 0 }
  else
    let potentialMatches := accumMatches s userId minRating now cutoff myRecentMovies
    let sorted := sortMatches potentialMatches
    { «matches» := sorted.take limit, total := potentialMatches.length }

/-- The requesting user's logs of one title (the myLog query of
getMatchesForMovie: userId == uid, tmdbId == movieId,
mediaType == movie; note it has no watchedAt cutoff). -/
def myTitleViews (s : Store) (userId : String) (movieId : Int) : List MediaLog :=
  s.mediaLogs.filter fun l =>
    l.userId == userId && l.tmdbId == movieId && l.mediaType == "movie"

/-- Construction of the PotentialMatch pushed by getMatchesForMovie
(no rating fields are set by this finder). -/
def mkMovieMatch (s : Store) (now : Int) (movieId : Int) (myWatchedAt : Int)
    (log : MediaLog) : PotentialMatch :=
  { userId := log.userId
    displayName := (s.users log.userId).bind UserInfo.displayName
    photoURL := (s.users log.userId).bind UserInfo.photoURL
    movieId := movieId
    movieTitle := (s.mediaCache movieId).bind MovieInfo.title
    moviePosterPath := (s.mediaCache movieId).bind MovieInfo.posterPath
    theirWatchedAt := log.watchedAt
    myWatchedAt := myWatchedAt
    daysAgo := daysAgoOf now log.watchedAt
    myRating := none
    theirRating := none }

/-- getMatchesForMovie: most recent log of the title by the requester
(orderBy watchedAt desc, limit 1; empty result short-circuits to []),
then one PotentialMatch per candidate view by another user, sorted by
daysAgo. -/
def getMatchesForMovie (s : Store) (now : Int) (userId : String) (movieId : Int)
    (cutoff : Int) : List PotentialMatch :=
  match (List.insertionSort watchedAtGE (myTitleViews s userId movieId)).head? with
  | none => []
  | some myDoc =>
      let «matches» := (viewsByTitle s movieId cutoff).foldl
        (fun acc log =>
          if log.userId == userId then acc
          else acc ++ [mkMovieMatch s now movieId myDoc.watchedAt log]) []
      List.insertionSort daysAgoLE «matches»

/-- Instrumented inner-loop body: the accumulated matches together
with the number of awaited store reads issued after the initial
getRecentMovies fetch.  A pushed candidate costs two reads (the users
document and the media_cache document); every skipped candidate costs
none. -/
def matchStepCount (s : Store) (userId : String) (minRating : ℚ) (now : Int) (myLog : MediaLog)
    (acc : List PotentialMatch × Nat) (otherLog : MediaLog) : List PotentialMatch × Nat :=
  if otherLog.userId == userId then acc
  else if minRatingExcludes minRating otherLog.rating then acc
  else if bandExcludes myLog.rating otherLog.rating then acc
  else if (acc.1.find? fun m => m.userId == otherLog.userId && m.movieId == myLog.tmdbId).isSome then acc
  else (acc.1 ++ [mkMatch s now myLog otherLog], acc.2 + 2)

/-- Number of store reads findPotentialMatches issues after the
initial getRecentMovies fetch: one per-title query for each of the
requester's recent logs, plus two enrichment reads per pushed match. -/
def findPotentialMatchesCalls (s : Store) (userId : String) (now cutoff : Int)
    (minRating : ℚ) : Nat :=
  let myRecentMovies := getRecentMovies s userId cutoff
  if myRecentMovies.isEmpty then 0
  else
    (myRecentMovies.foldl
      (fun acc myLog => (viewsByTitle s myLog.tmdbId cutoff).foldl
        (matchStepCount s userId minRating now myLog) (acc.1, acc.2 + 1))
      ([], 0)).2

/-- Modelled from the spec: the dedup key of an accumulated match,
(candidateView.userId, myView.titleId). -/
def matchKey (p : MediaLog × MediaLog) : String × Int := (p.2.userId, p.1.tmdbId)

/-- Modelled from the spec (Compatibility Filter, section 4.1): a
candidate pair survives when none of the three exclusion rules of the
source loop fires. -/
def qualifies (userId : String) (minRating : ℚ) (p : MediaLog × MediaLog) : Bool :=
  !(p.2.userId == userId) && !minRatingExcludes minRating p.2.rating
    && !bandExcludes p.1.rating p.2.rating

/-- The stream of (myView, candidateView) pairs in the nested
iteration order of findPotentialMatches. -/
def candidatePairs (s : Store) (cutoff : Int) (myRecent : List MediaLog) :
    List (MediaLog × MediaLog) :=
  myRecent.flatMap fun myLog =>
    (viewsByTitle s myLog.tmdbId cutoff).map fun o => (myLog, o)

/-- Modelled from the spec: first-seen-wins deduplication by a key
(later elements with an already seen key are dropped). -/
def dedupByKey {α β : Type} (key : α → β) [DecidableEq β] : List α → List α
  | [] => []
  | x :: xs => x :: dedupByKey key (xs.filter fun y => !decide (key y = key x))
termination_by l => l.length
decreasing_by
  simp only [List.length_cons]
  exact Nat.lt_succ_of_le (List.length_filter_le _ _)

/-- Concrete store: the requester rated a title 0 stars (the lowest
value the API validation accepts) and another user rated it 5. -/
def zeroRatingStore : Store where
  mediaLogs :=
    [ ⟨"me", 1, "movie", 0, some 0⟩
    , ⟨"alice", 1, "movie", 0, some 5⟩ ]
  users := fun _ => none
  mediaCache := fun _ => none

/-- Concrete store: the requester watched title 1 (rating 4), bob
watched it twice (rating 5) and carol once (rating 4). -/
def demoStore : Store where
  mediaLogs :=
    [ ⟨"me", 1, "movie", 100, some 4⟩
    , ⟨"bob", 1, "movie", 200, some 5⟩
    , ⟨"bob", 1, "movie", 150, some 5⟩
    , ⟨"carol", 1, "movie", 180, some 4⟩ ]
  users := fun u => if u = "bob" then some ⟨some "Bob", none⟩ else none
  mediaCache := fun i => if i = 1 then some ⟨some "T1", none⟩ else none

/-- Concrete store: the requester watched title 7 once and dana
watched it twice, nobody rated anything. -/
def twoViewStore : Store where
  mediaLogs :=
    [ ⟨"me", 7, "movie", 50, none⟩
    , ⟨"dana", 7, "movie", 80, none⟩
    , ⟨"dana", 7, "movie", 60, none⟩ ]
  users := fun _ => none
  mediaCache := fun _ => none

/-- Concrete store in which the requester has no recent movie views
(only a tv log), while another user does have movie views. -/
def noViewsStore : Store where
  mediaLogs :=
    [ ⟨"alice", 3, "movie", 10, none⟩
    , ⟨"me", 4, "tv", 10, none⟩ ]
  users := fun _ => none
  mediaCache := fun _ => none

/-- Concrete store: the requester watched title 1 and two other users
each watched it once, nobody rated anything. -/
def limitStore : Store where
  mediaLogs :=
    [ ⟨"me", 1, "movie", 100, none⟩
    , ⟨"bob", 1, "movie", 200, none⟩
    , ⟨"carol", 1, "movie", 180, none⟩ ]
  users := fun _ => none
  mediaCache := fun _ => none

/-- The duplicate test the source loop runs against the accumulated
list, phrased for a (myView, candidateView) pair. -/
def seenIn (acc : List PotentialMatch) (p : MediaLog × MediaLog) : Bool :=
  acc.any fun m => m.userId == p.2.userId && m.movieId == p.1.tmdbId

/-- find? returns something exactly when some element passes the
test. -/
lemma find?_isSome_eq_any {α : Type} (p : α → Bool) :
    ∀ l : List α, (l.find? p).isSome = l.any p
  | [] => rfl
  | x :: xs => by
    cases h : p x <;> simp [List.find?, h, find?_isSome_eq_any p xs]

/-- Folding over a flatMap is the nested fold. -/
lemma foldl_flatMap {α β γ : Type} (f : α → List β) (g : γ → β → γ) :
    ∀ (l : List α) (b : γ),
    (l.flatMap f).foldl g b = l.foldl (fun acc a => (f a).foldl g acc) b
  | [], _ => rfl
  | x :: xs, b => by
    simp only [List.flatMap_cons, List.foldl_append, List.foldl_cons]
    exact foldl_flatMap f g xs _

/-- dedupByKey only drops elements. -/
lemma dedupByKey_sublist {α β : Type} (key : α → β) [DecidableEq β] :
    ∀ l : List α, (dedupByKey key l).Sublist l := by
  have H : ∀ (n : Nat) (l : List α), l.length ≤ n → (dedupByKey key l).Sublist l := by
    intro n
    induction n with
    | zero =>
      intro l h
      cases l with
      | nil => simp [dedupByKey]
      | cons x xs => simp at h
    | succ n ih =>
      intro l h
      cases l with
      | nil => simp [dedupByKey]
      | cons x xs =>
        rw [dedupByKey]
        refine List.Sublist.cons₂ x ?_
        refine List.Sublist.trans
          (ih _ (le_trans (List.length_filter_le _ _) (Nat.le_of_succ_le_succ h)))
          (List.filter_sublist _)
  exact fun l => H l.length l le_rfl

/-- All keys in the output of dedupByKey are pairwise different. -/
lemma dedupByKey_pairwise {α β : Type} (key : α → β) [DecidableEq β] :
    ∀ l : List α, (dedupByKey key l).Pairwise (fun a b => key a ≠ key b) := by
  have H : ∀ (n : Nat) (l : List α), l.length ≤ n →
      (dedupByKey key l).Pairwise (fun a b => key a ≠ key b) := by
    intro n
    induction n with
    | zero =>
      intro l h
      cases l with
      | nil => simp [dedupByKey]
      | cons x xs => simp at h
    | succ n ih =>
      intro l h
      cases l with
      | nil => simp [dedupByKey]
      | cons x xs =>
        rw [dedupByKey, List.pairwise_cons]
        constructor
        · intro y hy
          have hy2 : y ∈ xs.filter (fun y => !decide (key y = key x)) :=
            (dedupByKey_sublist key _).subset hy
          have hne := (List.mem_filter.mp hy2).2
          simp only [Bool.not_eq_true', decide_eq_false_iff_not] at hne
          exact fun hxy => hne (hxy.symm ▸ rfl)
        · exact ih _ (le_trans (List.length_filter_le _ _) (Nat.le_of_succ_le_succ h))
  exact fun l => H l.length l le_rfl

/-- Appending a pushed match to the accumulator extends the seen test
by a key comparison with the pushed pair. -/
lemma seenIn_append_mkMatch (s : Store) (now : Int) (acc : List PotentialMatch)
    (p q : MediaLog × MediaLog) :
    (!seenIn (acc ++ [mkMatch s now p.1 p.2]) q)
      = (!seenIn acc q && !decide (matchKey q = matchKey p)) := by
  have hsingle : ((mkMatch s now p.1 p.2).userId == q.2.userId &&
      (mkMatch s now p.1 p.2).movieId == q.1.tmdbId) = decide (matchKey q = matchKey p) := by
    rw [Bool.eq_iff_iff]
    simp only [mkMatch, matchKey, Prod.ext_iff, Bool.and_eq_true, beq_iff_eq,
      decide_eq_true_eq]
    exact ⟨fun ⟨h1, h2⟩ => ⟨h1.symm, h2.symm⟩, fun ⟨h1, h2⟩ => ⟨h1.symm, h2.symm⟩⟩
  unfold seenIn
  rw [List.any_append, List.any_cons, List.any_nil, Bool.or_false, hsingle, Bool.not_or]

/-- The accumulation loop of findPotentialMatches, started from any
accumulator, appends exactly the first qualifying pair of every not
yet seen (candidate user, title) key, in encounter order. -/
lemma foldl_matchStep_eq (s : Store) (uid : String) (minR : ℚ) (now : Int) :
    ∀ (ps : List (MediaLog × MediaLog)) (acc : List PotentialMatch),
    ps.foldl (fun a p => matchStep s uid minR now p.1 a p.2) acc
      = acc ++ (dedupByKey matchKey ((ps.filter (qualifies uid minR)).filter
          (fun p => !seenIn acc p))).map (fun p => mkMatch s now p.1 p.2)
  | [], acc => by simp [dedupByKey]
  | p :: ps, acc => by
    rw [List.foldl_cons, List.filter_cons]
    cases hq : qualifies uid minR p with
    | false =>
      have hstep : matchStep s uid minR now p.1 acc p.2 = acc := by
        unfold qualifies at hq
        unfold matchStep
        cases ha : (p.2.userId == uid) <;> cases hb : minRatingExcludes minR p.2.rating <;>
          cases hc : bandExcludes p.1.rating p.2.rating <;>
          simp [ha, hb, hc] at hq ⊢
      rw [hstep, if_neg (by simp)]
      exact foldl_matchStep_eq s uid minR now ps acc
    | true =>
      rw [if_pos rfl]
      unfold qualifies at hq
      simp only [Bool.and_eq_true, Bool.not_eq_true'] at hq
      obtain ⟨⟨ha, hb⟩, hc⟩ := hq
      cases hs : seenIn acc p with
      | true =>
        have hstep : matchStep s uid minR now p.1 acc p.2 = acc := by
          unfold matchStep
          rw [find?_isSome_eq_any]
          unfold seenIn at hs
          simp [ha, hb, hc, hs]
        rw [hstep, List.filter_cons, hs, if_neg (by simp)]
        exact foldl_matchStep_eq s uid minR now ps acc
      | false =>
        have hstep : matchStep s uid minR now p.1 acc p.2
            = acc ++ [mkMatch s now p.1 p.2] := by
          unfold matchStep
          rw [find?_isSome_eq_any]
          unfold seenIn at hs
          simp [ha, hb, hc, hs]
        rw [hstep, List.filter_cons, hs, if_pos (by simp)]
        rw [foldl_matchStep_eq s uid minR now ps (acc ++ [mkMatch s now p.1 p.2])]
        have hfc : (ps.filter (qualifies uid minR)).filter
              (fun q => !seenIn (acc ++ [mkMatch s now p.1 p.2]) q)
            = ((ps.filter (qualifies uid minR)).filter (fun q => !seenIn acc q)).filter
              (fun q => !decide (matchKey q = matchKey p)) := by
          have h2 : ((ps.filter (qualifies uid minR)).filter (fun q => !seenIn acc q)).filter
                (fun q => !decide (matchKey q = matchKey p))
              = (ps.filter (qualifies uid minR)).filter
                (fun q => !decide (matchKey q = matchKey p) && !seenIn acc q) :=
            List.filter_filter _ _
          rw [h2]
          exact List.filter_congr fun q _ =>
            (seenIn_append_mkMatch s now acc p q).trans (Bool.and_comm _ _)
        rw [hfc, dedupByKey]
        simp [List.append_assoc]
  termination_by ps => ps.length

/-- The accumulated match list of findPotentialMatches is exactly the
first-seen deduplication of the qualifying pair stream, enriched by
mkMatch. -/
lemma accumMatches_eq (s : Store) (uid : String) (minR : ℚ) (now cutoff : Int)
    (myRecent : List MediaLog) :
    accumMatches s uid minR now cutoff myRecent
      = (dedupByKey matchKey ((candidatePairs s cutoff myRecent).filter
          (qualifies uid minR))).map (fun p => mkMatch s now p.1 p.2) := by
  have h1 : accumMatches s uid minR now cutoff myRecent
      = (candidatePairs s cutoff myRecent).foldl
          (fun a p => matchStep s uid minR now p.1 a p.2) [] := by
    unfold accumMatches candidatePairs
    rw [foldl_flatMap]
    congr 1
    funext acc myLog
    rw [List.foldl_map]
  rw [h1, foldl_matchStep_eq]
  simp [seenIn]

/-- Stability of orderedInsert: filtering the insertion by any
daysAgo value either prepends the new element or leaves the filtered
list unchanged. -/
lemma filter_orderedInsert (d : Int) (a : PotentialMatch) :
    ∀ l : List PotentialMatch,
    (List.orderedInsert daysAgoLE a l).filter (fun m => decide (m.daysAgo = d))
      = if a.daysAgo = d then a :: l.filter (fun m => decide (m.daysAgo = d))
        else l.filter (fun m => decide (m.daysAgo = d))
  | [] => by
    by_cases h : a.daysAgo = d <;>
      simp [List.orderedInsert, List.filter_cons, h]
  | b :: l => by
    rw [List.orderedInsert]
    by_cases hr : daysAgoLE a b
    · rw [if_pos hr]
      by_cases h : a.daysAgo = d <;> simp [List.filter_cons, h]
    · rw [if_neg hr]
      by_cases hb : b.daysAgo = d
      · by_cases h : a.daysAgo = d
        · exact absurd (le_of_eq (h.trans hb.symm)) hr
        · simp [List.filter_cons, hb, h, filter_orderedInsert d a l]
      · by_cases h : a.daysAgo = d <;>
          simp [List.filter_cons, hb, h, filter_orderedInsert d a l]

/-- Stability of the daysAgo sort: for every daysAgo value, the sort
preserves the relative order (and multiplicity) of the entries with
that value. -/
lemma filter_insertionSortDays (d : Int) :
    ∀ l : List PotentialMatch,
    (List.insertionSort daysAgoLE l).filter (fun m => decide (m.daysAgo = d))
      = l.filter (fun m => decide (m.daysAgo = d))
  | [] => rfl
  | a :: l => by
    simp only [List.insertionSort]
    rw [filter_orderedInsert]
    by_cases h : a.daysAgo = d <;>
      simp [List.filter_cons, h, filter_insertionSortDays d l]

/-- The loop of getMatchesForMovie appends one match per candidate
log of another user, in candidate order. -/
lemma foldl_movieMatch_eq (s : Store) (now movieId myW : Int) (uid : String) :
    ∀ (logs : List MediaLog) (acc : List PotentialMatch),
    logs.foldl (fun acc log => if log.userId == uid then acc
      else acc ++ [mkMovieMatch s now movieId myW log]) acc
      = acc ++ (logs.filter (fun l => !(l.userId == uid))).map (mkMovieMatch s now movieId myW)
  | [], acc => by simp
  | log :: logs, acc => by
    rw [List.foldl_cons, List.filter_cons]
    cases h : (log.userId == uid) with
    | true =>
      rw [if_pos rfl, if_neg (by simp)]
      exact foldl_movieMatch_eq s now movieId myW uid logs acc
    | false =>
      rw [if_neg (by simp), if_pos (by simp)]
      rw [foldl_movieMatch_eq s now movieId myW uid logs
        (acc ++ [mkMovieMatch s now movieId myW log])]
      simp [List.append_assoc]

/-- Unpacking the qualifying test. -/
lemma qualifies_spec {uid : String} {minR : ℚ} {p : MediaLog × MediaLog}
    (h : qualifies uid minR p = true) :
    p.2.userId ≠ uid ∧ minRatingExcludes minR p.2.rating = false
      ∧ bandExcludes p.1.rating p.2.rating = false := by
  unfold qualifies at h
  simp only [Bool.and_eq_true, Bool.not_eq_true', beq_eq_false_iff_ne, ne_eq] at h
  exact ⟨h.1.1, h.1.2, h.2⟩

/-- Unfolded form of findPotentialMatches with its let bindings
substituted. -/
lemma findPotentialMatches_eq (s : Store) (uid : String) (now cutoff : Int)
    (minR : ℚ) (limit : Nat) :
    findPotentialMatches s uid now cutoff minR limit
      = if (getRecentMovies s uid cutoff).isEmpty
        then { «matches» := [], total := 0 }
        else
          { «matches» := (sortMatches (accumMatches s uid minR now cutoff
              (getRecentMovies s uid cutoff))).take limit
            total := (accumMatches s uid minR now cutoff
              (getRecentMovies s uid cutoff)).length } := rfl

/-- Every match returned by findPotentialMatches is built by mkMatch
from a qualifying pair of the candidate stream. -/
lemma mem_findPotentialMatches {s : Store} {uid : String} {now cutoff : Int} {minR : ℚ}
    {limit : Nat} {m : PotentialMatch}
    (hm : m ∈ (findPotentialMatches s uid now cutoff minR limit).«matches») :
    ∃ p ∈ (candidatePairs s cutoff (getRecentMovies s uid cutoff)).filter (qualifies uid minR),
      m = mkMatch s now p.1 p.2 := by
  rw [findPotentialMatches_eq] at hm
  cases he : (getRecentMovies s uid cutoff).isEmpty with
  | true => rw [he] at hm; simp at hm
  | false =>
    rw [he] at hm
    simp only [Bool.false_eq_true, if_false] at hm
    have hm2 : m ∈ sortMatches
        (accumMatches s uid minR now cutoff (getRecentMovies s uid cutoff)) :=
      (List.take_sublist _ _).subset hm
    have hm3 : m ∈ accumMatches s uid minR now cutoff (getRecentMovies s uid cutoff) :=
      (List.perm_insertionSort daysAgoLE _).mem_iff.mp hm2
    rw [accumMatches_eq] at hm3
    obtain ⟨p, hp, hmp⟩ := List.mem_map.mp hm3
    exact ⟨p, (dedupByKey_sublist matchKey _).subset hp, hmp.symm⟩

/-- When the requester has no log of the title, getMatchesForMovie
returns the empty list. -/
lemma getMatchesForMovie_eq_none (s : Store) (now : Int) (uid : String)
    (movieId cutoff : Int)
    (hh : (List.insertionSort watchedAtGE (myTitleViews s uid movieId)).head? = none) :
    getMatchesForMovie s now uid movieId cutoff = [] := by
  unfold getMatchesForMovie
  rw [hh]

/-- When the requester has a most recent log of the title,
getMatchesForMovie is the sorted per-candidate match list built from
that log. -/
lemma getMatchesForMovie_eq_of_head (s : Store) (now : Int) (uid : String)
    (movieId cutoff : Int) {v : MediaLog}
    (hh : (List.insertionSort watchedAtGE (myTitleViews s uid movieId)).head? = some v) :
    getMatchesForMovie s now uid movieId cutoff
      = List.insertionSort daysAgoLE
          (((viewsByTitle s movieId cutoff).filter (fun l => !(l.userId == uid))).map
            (mkMovieMatch s now movieId v.watchedAt)) := by
  unfold getMatchesForMovie
  simp only [hh]
  rw [foldl_movieMatch_eq]
  simp

/-- A nonempty list sorted descending by watchedAt starts with a
maximal element. -/
lemma insertionSort_head_max {l : List MediaLog} (h : l ≠ []) :
    ∃ v, (List.insertionSort watchedAtGE l).head? = some v ∧ v ∈ l ∧
      ∀ w ∈ l, w.watchedAt ≤ v.watchedAt := by
  have hperm := List.perm_insertionSort watchedAtGE l
  have hsorted := List.sorted_insertionSort watchedAtGE l
  cases hs : List.insertionSort watchedAtGE l with
  | nil =>
    exfalso
    apply h
    have := hperm.length_eq
    rw [hs] at this
    exact List.eq_nil_of_length_eq_zero this.symm
  | cons v rest =>
    refine ⟨v, rfl, ?_, ?_⟩
    · apply hperm.subset
      rw [hs]
      exact List.mem_cons_self _ _
    · intro w hw
      have hw2 : w ∈ v :: rest := by
        rw [← hs]
        exact hperm.symm.subset hw
      rcases List.mem_cons.mp hw2 with rfl | hw3
      · exact le_refl _
      · rw [hs] at hsorted
        exact (List.sorted_cons.mp hsorted).1 w hw3

/-- The compatibility band does not exclude the pair of ratings 4 and
5 (difference 1). -/
lemma bandExcludes_four_five : bandExcludes (some 4) (some 5) = false := by
  norm_num [bandExcludes, ratingTruthy]

/-- The compatibility band does not exclude the pair of ratings 4 and
4 (difference 0). -/
lemma bandExcludes_four_four : bandExcludes (some 4) (some 4) = false := by
  norm_num [bandExcludes, ratingTruthy]

lemma daysAgoOf_200 : daysAgoOf 864000000 200 = 9 := by decide

lemma daysAgoOf_150 : daysAgoOf 864000000 150 = 9 := by decide

lemma daysAgoOf_180 : daysAgoOf 864000000 180 = 9 := by decide

/-- C2: for every input of findPotentialMatches, no two entries of
the returned matches list share the same (otherUserId, movieId) pair,
and the accumulated list is exactly the first-seen deduplication (by
that pair) of the qualifying candidate stream taken in the nested
iteration order, so later duplicates neither overwrite nor append. -/
theorem C2_dedup_first_seen (s : Store) (uid : String) (now cutoff : Int) (minR : ℚ)
    (limit : Nat) :
    ((findPotentialMatches s uid now cutoff minR limit).«matches»).Pairwise
      (fun a b => ¬(a.userId = b.userId ∧ a.movieId = b.movieId))
    ∧ accumMatches s uid minR now cutoff (getRecentMovies s uid cutoff)
      = (dedupByKey matchKey ((candidatePairs s cutoff (getRecentMovies s uid cutoff)).filter
          (qualifies uid minR))).map (fun p => mkMatch s now p.1 p.2) := by
  constructor
  · rw [findPotentialMatches_eq]
    cases he : (getRecentMovies s uid cutoff).isEmpty with
    | true => simp
    | false =>
      simp only [Bool.false_eq_true, if_false]
      have hacc : (accumMatches s uid minR now cutoff (getRecentMovies s uid cutoff)).Pairwise
          (fun a b => ¬(a.userId = b.userId ∧ a.movieId = b.movieId)) := by
        rw [accumMatches_eq, List.pairwise_map]
        refine (dedupByKey_pairwise matchKey _).imp ?_
        intro a b hk hab
        exact hk (Prod.ext_iff.mpr ⟨hab.1, hab.2⟩)
      have hsym : ∀ {x y : PotentialMatch},
          (¬(x.userId = y.userId ∧ x.movieId = y.movieId)) →
          ¬(y.userId = x.userId ∧ y.movieId = x.movieId) :=
        fun h hxy => h ⟨hxy.1.symm, hxy.2.symm⟩
      have hsort := (List.Perm.pairwise_iff hsym
        (List.perm_insertionSort daysAgoLE
          (accumMatches s uid minR now cutoff (getRecentMovies s uid cutoff)))).mpr hacc
      exact List.Pairwise.sublist (List.take_sublist limit _) hsort
  · exact accumMatches_eq s uid minR now cutoff (getRecentMovies s uid cutoff)

/-- C4: the matches list returned by findPotentialMatches is sorted
in non-decreasing order of daysAgo; the sort is stable: for every
daysAgo value, the untruncated sorted list restricted to that value
equals the accumulated list restricted to it, and the truncated
matches list restricted to it is a sublist of that restriction, so
ties keep their accumulation order. -/
theorem C4_sorted_by_days_ago (s : Store) (uid : String) (now cutoff : Int) (minR : ℚ)
    (limit : Nat) :
    List.Sorted daysAgoLE ((findPotentialMatches s uid now cutoff minR limit).«matches»)
    ∧ (∀ d : Int,
        (sortMatches (accumMatches s uid minR now cutoff (getRecentMovies s uid cutoff))).filter
            (fun m => decide (m.daysAgo = d))
          = (accumMatches s uid minR now cutoff (getRecentMovies s uid cutoff)).filter
            (fun m => decide (m.daysAgo = d)))
    ∧ ∀ d : Int,
        (((findPotentialMatches s uid now cutoff minR limit).«matches»).filter
            (fun m => decide (m.daysAgo = d))).Sublist
          ((accumMatches s uid minR now cutoff (getRecentMovies s uid cutoff)).filter
            (fun m => decide (m.daysAgo = d))) := by
  refine ⟨?_, fun d => filter_insertionSortDays d _, ?_⟩
  · rw [findPotentialMatches_eq]
    cases he : (getRecentMovies s uid cutoff).isEmpty with
    | true => simp
    | false =>
      simp only [Bool.false_eq_true, if_false]
      exact List.Pairwise.sublist (List.take_sublist limit _)
        (List.sorted_insertionSort daysAgoLE _)
  · intro d
    rw [findPotentialMatches_eq]
    cases he : (getRecentMovies s uid cutoff).isEmpty with
    | true => simp
    | false =>
      simp only [Bool.false_eq_true, if_false]
      have h1 : (((sortMatches (accumMatches s uid minR now cutoff
              (getRecentMovies s uid cutoff))).take limit).filter
              (fun m => decide (m.daysAgo = d))).Sublist
            ((sortMatches (accumMatches s uid minR now cutoff
              (getRecentMovies s uid cutoff))).filter (fun m => decide (m.daysAgo = d))) :=
        (List.take_sublist limit _).filter _
      simp only [sortMatches] at h1
      rw [filter_insertionSortDays d] at h1
      exact h1

/-- C5: the total field of findPotentialMatches counts all qualifying
accumulated matches before truncation, the matches field is the
sorted list truncated to the first limit entries, total does not
depend on limit, and on a concrete store with limit 1 the total (2)
exceeds the length of matches (1). -/
theorem C5_total_independent_of_limit (s : Store) (uid : String) (now cutoff : Int)
    (minR : ℚ) (limit limit2 : Nat) :
    (findPotentialMatches s uid now cutoff minR limit).total
      = (accumMatches s uid minR now cutoff (getRecentMovies s uid cutoff)).length
    ∧ (findPotentialMatches s uid now cutoff minR limit).«matches»
      = (sortMatches (accumMatches s uid minR now cutoff
          (getRecentMovies s uid cutoff))).take limit
    ∧ (findPotentialMatches s uid now cutoff minR limit).total
      = (findPotentialMatches s uid now cutoff minR limit2).total
    ∧ (findPotentialMatches limitStore "me" 864000000 0 0 1).total = 2
    ∧ ((findPotentialMatches limitStore "me" 864000000 0 0 1).«matches»).length = 1 := by
  refine ⟨?_, ?_, ?_, by decide, by decide⟩
  · rw [findPotentialMatches_eq]
    cases he : (getRecentMovies s uid cutoff).isEmpty with
    | true =>
      have h0 : getRecentMovies s uid cutoff = [] := List.isEmpty_iff.mp he
      simp [h0, accumMatches]
    | false => simp
  · rw [findPotentialMatches_eq]
    cases he : (getRecentMovies s uid cutoff).isEmpty with
    | true =>
      have h0 : getRecentMovies s uid cutoff = [] := List.isEmpty_iff.mp he
      simp [h0, accumMatches, sortMatches, List.insertionSort]
    | false => simp
  · rw [findPotentialMatches_eq, findPotentialMatches_eq]
    cases he : (getRecentMovies s uid cutoff).isEmpty <;> simp

/-- C6: when the requesting user has no recent movie views within the
window, findPotentialMatches returns exactly the successful empty
response, and issues no store reads beyond the initial fetch of the
recent views. -/
theorem C6_empty_short_circuit (s : Store) (uid : String) (now cutoff : Int) (minR : ℚ)
    (limit : Nat) (h : getRecentMovies s uid cutoff = []) :
    findPotentialMatches s uid now cutoff minR limit = { «matches» := [], total := 0 }
    ∧ findPotentialMatchesCalls s uid now cutoff minR = 0 := by
  constructor
  · rw [findPotentialMatches_eq, h]
    rfl
  · unfold findPotentialMatchesCalls
    rw [h]
    rfl

/-- Witness for C6 at a concrete store in which the requester has no
recent movie views. -/
theorem C6_empty_short_circuit_witness :
    getRecentMovies noViewsStore "me" 0 = []
    ∧ (findPotentialMatches noViewsStore "me" 864000000 0 0 50
        = { «matches» := [], total := 0 }
      ∧ findPotentialMatchesCalls noViewsStore "me" 864000000 0 0 = 0) :=
  ⟨by decide, C6_empty_short_circuit noViewsStore "me" 864000000 0 0 50 (by decide)⟩

/-- C8: no PotentialMatch returned by findPotentialMatches or by
getMatchesForMovie has userId equal to the requesting user's id. -/
theorem C8_no_self_match (s : Store) (uid : String) (now cutoff : Int) (minR : ℚ)
    (limit : Nat) (movieId : Int) :
    (∀ m ∈ (findPotentialMatches s uid now cutoff minR limit).«matches», m.userId ≠ uid)
    ∧ (∀ m ∈ getMatchesForMovie s now uid movieId cutoff, m.userId ≠ uid) := by
  constructor
  · intro m hm
    obtain ⟨p, hp, rfl⟩ := mem_findPotentialMatches hm
    exact (qualifies_spec (List.mem_filter.mp hp).2).1
  · intro m hm
    cases hh : (List.insertionSort watchedAtGE (myTitleViews s uid movieId)).head? with
    | none =>
      rw [getMatchesForMovie_eq_none s now uid movieId cutoff hh] at hm
      simp at hm
    | some v =>
      rw [getMatchesForMovie_eq_of_head s now uid movieId cutoff hh] at hm
      have hm2 := (List.perm_insertionSort daysAgoLE _).subset hm
      obtain ⟨l, hl, rfl⟩ := List.mem_map.mp hm2
      have hne := (List.mem_filter.mp hl).2
      simp only [Bool.not_eq_true', beq_eq_false_iff_ne, ne_eq] at hne
      exact hne

/-- Witness for C8 at a concrete store: dana appears as a match of
the requester for both finders, and dana is not the requester. -/
theorem C8_no_self_match_witness :
    (mkMatch twoViewStore 864000000 ⟨"me", 7, "movie", 50, none⟩
        ⟨"dana", 7, "movie", 80, none⟩
        ∈ (findPotentialMatches twoViewStore "me" 864000000 0 0 50).«matches»
      ∧ (mkMatch twoViewStore 864000000 ⟨"me", 7, "movie", 50, none⟩
          ⟨"dana", 7, "movie", 80, none⟩).userId ≠ "me")
    ∧ (mkMovieMatch twoViewStore 864000000 7 50 ⟨"dana", 7, "movie", 80, none⟩
        ∈ getMatchesForMovie twoViewStore 864000000 "me" 7 0
      ∧ (mkMovieMatch twoViewStore 864000000 7 50
          ⟨"dana", 7, "movie", 80, none⟩).userId ≠ "me") :=
  ⟨⟨by decide, (C8_no_self_match twoViewStore "me" 864000000 0 0 50 7).1 _ (by decide)⟩,
   ⟨by decide, (C8_no_self_match twoViewStore "me" 864000000 0 0 50 7).2 _ (by decide)⟩⟩

/-- C7: when minRating is positive, every returned match of
findPotentialMatches carries a candidate rating of at least
minRating; the filter never constrains the requester's rating, as the
concrete conjunct shows (the requester's own rating 0 is below the
minRating of 5, yet the match is returned). -/
theorem C7_min_rating_on_candidate (s : Store) (uid : String) (now cutoff : Int)
    (minR : ℚ) (limit : Nat) :
    (0 < minR → ∀ m ∈ (findPotentialMatches s uid now cutoff minR limit).«matches»,
      ∃ v, m.theirRating = some v ∧ minR ≤ v)
    ∧ ((findPotentialMatches zeroRatingStore "me" 864000000 0 5 50).«matches»).map
        (fun m => (m.userId, m.myRating)) = [("alice", some 0)] := by
  refine ⟨?_, by decide⟩
  intro hmin m hm
  obtain ⟨p, hp, rfl⟩ := mem_findPotentialMatches hm
  have hmr := (qualifies_spec (List.mem_filter.mp hp).2).2.1
  unfold minRatingExcludes at hmr
  rw [decide_eq_true hmin, Bool.true_and, Bool.or_eq_false_iff] at hmr
  obtain ⟨ht, hlt⟩ := hmr
  cases hr : p.2.rating with
  | none => rw [hr] at ht; simp [ratingTruthy] at ht
  | some v =>
    rw [hr] at hlt
    simp only [Option.getD_some, decide_eq_false_iff_not, not_lt] at hlt
    exact ⟨v, by simp [mkMatch, hr], hlt⟩

/-- Witness for C7: at the concrete store the candidate rating 5
satisfies the minRating of 5. -/
theorem C7_min_rating_on_candidate_witness :
    (0:ℚ) < 5
    ∧ (mkMatch zeroRatingStore 864000000 ⟨"me", 1, "movie", 0, some 0⟩
        ⟨"alice", 1, "movie", 0, some 5⟩
        ∈ (findPotentialMatches zeroRatingStore "me" 864000000 0 5 50).«matches»)
    ∧ ∃ v, (mkMatch zeroRatingStore 864000000 ⟨"me", 1, "movie", 0, some 0⟩
        ⟨"alice", 1, "movie", 0, some 5⟩).theirRating = some v ∧ (5:ℚ) ≤ v :=
  ⟨by decide, by decide,
    (C7_min_rating_on_candidate zeroRatingStore "me" 864000000 0 5 50).1 (by decide) _
      (by decide)⟩

/-- C1 counterexample: on a store in which the requester rated the
title 0 (a value the API accepts) and the candidate rated it 5, a
match is returned whose two present ratings differ by more than 1, so
the claim as stated fails. -/
theorem C1_rating_band_counterexample :
    ∃ m ∈ (findPotentialMatches zeroRatingStore "me" 864000000 0 0 50).«matches»,
      ∃ a b : ℚ, m.myRating = some a ∧ m.theirRating = some b ∧ ¬(|a - b| ≤ 1) :=
  ⟨mkMatch zeroRatingStore 864000000 ⟨"me", 1, "movie", 0, some 0⟩
    ⟨"alice", 1, "movie", 0, some 5⟩, by decide, 0, 5, rfl, rfl, by norm_num⟩

/-- C1 amended: for every match returned by findPotentialMatches in
which both views carry a nonzero rating, the absolute difference of
the two ratings is at most 1 (a present rating of exactly 0 is falsy
in the source and bypasses the band, see C10). -/
theorem C1_rating_band_amended (s : Store) (uid : String) (now cutoff : Int) (minR : ℚ)
    (limit : Nat) :
    ∀ m ∈ (findPotentialMatches s uid now cutoff minR limit).«matches»,
    ∀ a b : ℚ, m.myRating = some a → m.theirRating = some b → a ≠ 0 → b ≠ 0 →
      |a - b| ≤ 1 := by
  intro m hm a b hma hmb ha hb
  obtain ⟨p, hp, rfl⟩ := mem_findPotentialMatches hm
  have hband := (qualifies_spec (List.mem_filter.mp hp).2).2.2
  have hma2 : p.1.rating = some a := hma
  have hmb2 : p.2.rating = some b := hmb
  unfold bandExcludes at hband
  rw [hma2, hmb2] at hband
  simp only [ratingTruthy, Option.getD_some, decide_eq_true ha, decide_eq_true hb,
    Bool.true_and] at hband
  simpa [not_lt] using hband

/-- Witness for the amended C1: a returned match with nonzero
ratings 4 and 5 stays within the band. -/
theorem C1_rating_band_amended_witness :
    (mkMatch demoStore 864000000 ⟨"me", 1, "movie", 100, some 4⟩
        ⟨"bob", 1, "movie", 200, some 5⟩
      ∈ (findPotentialMatches demoStore "me" 864000000 0 0 50).«matches»)
    ∧ (4:ℚ) ≠ 0 ∧ (5:ℚ) ≠ 0 ∧ |(4:ℚ) - 5| ≤ 1 := by
  have hmem : mkMatch demoStore 864000000 ⟨"me", 1, "movie", 100, some 4⟩
      ⟨"bob", 1, "movie", 200, some 5⟩
      ∈ (findPotentialMatches demoStore "me" 864000000 0 0 50).«matches» := by
    norm_num [findPotentialMatches, getRecentMovies, viewsByTitle, accumMatches, matchStep,
      mkMatch, sortMatches, minRatingExcludes, ratingTruthy, demoStore, List.insertionSort,
      List.orderedInsert, daysAgoLE, watchedAtGE, List.find?, bandExcludes_four_five,
      bandExcludes_four_four, daysAgoOf_200, daysAgoOf_150, daysAgoOf_180]
  exact ⟨hmem, by decide, by decide,
    C1_rating_band_amended demoStore "me" 864000000 0 0 50 _ hmem 4 5 rfl rfl
      (by decide) (by decide)⟩

/-- C3: when the requester has watched the title, getMatchesForMovie
returns one entry per candidate view of the title by another user in
the window (no dedup and no rating filter); on the concrete store
where dana watched the title twice, the single-title finder returns
two entries while findPotentialMatches returns a total of one. -/
theorem C3_single_title_no_dedup (s : Store) (now : Int) (uid : String)
    (movieId cutoff : Int) (h : myTitleViews s uid movieId ≠ []) :
    (getMatchesForMovie s now uid movieId cutoff).length
      = ((viewsByTitle s movieId cutoff).filter (fun l => !(l.userId == uid))).length
    ∧ (getMatchesForMovie twoViewStore 864000000 "me" 7 0).length = 2
    ∧ (findPotentialMatches twoViewStore "me" 864000000 0 0 50).total = 1 := by
  refine ⟨?_, by decide, by decide⟩
  obtain ⟨v, hv, -, -⟩ := insertionSort_head_max h
  rw [getMatchesForMovie_eq_of_head s now uid movieId cutoff hv]
  rw [(List.perm_insertionSort daysAgoLE _).length_eq]
  simp

/-- Witness for C3 at the concrete store. -/
theorem C3_single_title_no_dedup_witness :
    myTitleViews twoViewStore "me" 7 ≠ []
    ∧ (getMatchesForMovie twoViewStore 864000000 "me" 7 0).length
      = ((viewsByTitle twoViewStore 7 0).filter (fun l => !(l.userId == "me"))).length :=
  ⟨by decide, (C3_single_title_no_dedup twoViewStore 864000000 "me" 7 0 (by decide)).1⟩

/-- C9: getMatchesForMovie returns the empty list when the requester
has no movie log of the title, and otherwise the most recent such log
(maximal watchedAt) supplies the myWatchedAt of every returned
match. -/
theorem C9_most_recent_own_view (s : Store) (now : Int) (uid : String)
    (movieId cutoff : Int) :
    (myTitleViews s uid movieId = [] → getMatchesForMovie s now uid movieId cutoff = [])
    ∧ (myTitleViews s uid movieId ≠ [] →
        ∃ v ∈ myTitleViews s uid movieId,
          (∀ w ∈ myTitleViews s uid movieId, w.watchedAt ≤ v.watchedAt)
          ∧ ∀ m ∈ getMatchesForMovie s now uid movieId cutoff,
              m.myWatchedAt = v.watchedAt) := by
  constructor
  · intro h
    apply getMatchesForMovie_eq_none
    rw [h]
    rfl
  · intro h
    obtain ⟨v, hv, hvmem, hmax⟩ := insertionSort_head_max h
    refine ⟨v, hvmem, hmax, ?_⟩
    intro m hm
    rw [getMatchesForMovie_eq_of_head s now uid movieId cutoff hv] at hm
    have hm2 := (List.perm_insertionSort daysAgoLE _).subset hm
    obtain ⟨l, -, rfl⟩ := List.mem_map.mp hm2
    rfl

/-- Witness for C9: both branches at concrete stores. -/
theorem C9_most_recent_own_view_witness :
    (myTitleViews noViewsStore "me" 7 = []
      ∧ getMatchesForMovie noViewsStore 864000000 "me" 7 0 = [])
    ∧ (myTitleViews twoViewStore "me" 7 ≠ []
      ∧ ∃ v ∈ myTitleViews twoViewStore "me" 7,
          (∀ w ∈ myTitleViews twoViewStore "me" 7, w.watchedAt ≤ v.watchedAt)
          ∧ ∀ m ∈ getMatchesForMovie twoViewStore 864000000 "me" 7 0,
              m.myWatchedAt = v.watchedAt) :=
  ⟨⟨by decide, (C9_most_recent_own_view noViewsStore 864000000 "me" 7 0).1 (by decide)⟩,
   ⟨by decide, (C9_most_recent_own_view twoViewStore 864000000 "me" 7 0).2 (by decide)⟩⟩

/-- C10: a present rating of exactly 0 is treated like an absent
rating by the minRating rule and by the compatibility band; with a
requester rating of 0 the band excludes nobody, and the pair of
ratings (0, 5) is returned on the concrete store. -/
theorem C10_zero_rating_treated_as_absent :
    (∀ minR : ℚ, minRatingExcludes minR (some 0) = minRatingExcludes minR none)
    ∧ (∀ r : Option ℚ, bandExcludes (some 0) r = bandExcludes none r)
    ∧ (∀ r : Option ℚ, bandExcludes r (some 0) = bandExcludes r none)
    ∧ (∀ r : Option ℚ, bandExcludes (some 0) r = false)
    ∧ ((findPotentialMatches zeroRatingStore "me" 864000000 0 0 50).«matches»).map
        (fun m => (m.userId, m.myRating, m.theirRating)) = [("alice", some 0, some 5)] := by
  refine ⟨?_, ?_, ?_, ?_, by decide⟩
  · intro minR
    norm_num [minRatingExcludes, ratingTruthy]
  · intro r
    norm_num [bandExcludes, ratingTruthy]
  · intro r
    norm_num [bandExcludes, ratingTruthy]
  · intro r
    norm_num [bandExcludes, ratingTruthy]

end CineMatch
